import Mathlib

set_option autoImplicit false

namespace Factslab

/-!
Shallow embedding of `factslab/pytorch/rnnregression.py` (classes
`RNNRegression` and `RNNRegressionTrainer`), at the level of detail the
verified properties need: tensors are nested lists of rationals (reals where
softmax is involved), shapes are tracked explicitly, and Python-level
behaviour (dict/list methods, positional-argument arity) is modelled
explicitly where a property depends on it.
-/

/-! ### Encoder cascade: `RNNRegression._run_rnns` (lines 264-279) -/

/-- Embedding of `RNNRegression._run_rnns`.  Each stage of the cascade is
abstracted as a function from the structure argument and the current inputs
to the full per-timestep output `h_all`; `squeeze` models `Tensor.squeeze`.
The source iterates `for rnn, structure in zip(self.rnns, [structures])`,
i.e. it zips the list of rnns against the singleton list `[structures]`, and
at the end of each iteration rebinds `inputs = h_all.squeeze()`.  Returns
the final `h_all` (`none` when the loop body never ran, modelling the
then-unbound Python local). -/
def runRnns {α β : Type} (squeeze : α → α) (rnns : List (β → α → α))
    (structures : β) (inputs : α) : Option α :=
  (List.zip rnns [structures]).foldl
    (fun acc p =>
      let inp := match acc with
        | none => inputs
        | some hAll => squeeze hAll
      some (p.1 p.2 inp))
    none

/-- The cascade the specification describes: every stage is applied in
order, stage i+1 consuming the squeeze of the output of stage i.  This follows
the spec wording and is compared against `runRnns`, which follows the
source. -/
def specCascade {α β : Type} (squeeze : α → α) (rnns : List (β → α → α))
    (structures : β) (inputs : α) : Option α :=
  rnns.foldl
    (fun acc rnn =>
      let inp := match acc with
        | none => inputs
        | some hAll => squeeze hAll
      some (rnn structures inp))
    none

/-! ### Early stopping: epoch loop of `RNNRegressionTrainer.fit`
(lines 496-584) -/

/-- One unfolding of the `while epoch < self.epochs` loop restricted to its
early-stopping control flow.  `fuel` is the remaining iteration budget
(`self.epochs - epoch`), `epoch` the current counter, `prev` the last entry
of the `early_stop` history, and `corrOf e` abstracts the mean validation
correlation the body of epoch `e + 1` appends (line 581).  The loop breaks
as soon as `early_stop[-1] - early_stop[-2] < 0` (lines 583-584).  Returns
the number of completed epochs. -/
def fitEpochsAux (corrOf : Nat → ℚ) : Nat → Nat → ℚ → Nat
  | 0, epoch, _ => epoch
  | fuel + 1, epoch, prev =>
    if corrOf epoch - prev < 0 then epoch + 1
    else fitEpochsAux corrOf fuel (epoch + 1) (corrOf epoch)

/-- The epoch loop of `fit`: counter starts at 0, the history is seeded with
the sentinel 0.0 (line 495), and the loop runs while `epoch < epochs`. -/
def fitEpochs (epochs : Nat) (corrOf : Nat → ℚ) : Nat :=
  fitEpochsAux corrOf epochs 0 0

theorem fitEpochsAux_continue (corrOf : Nat → ℚ) (fuel epoch : Nat) (prev : ℚ)
    (h : ¬ corrOf epoch - prev < 0) :
    fitEpochsAux corrOf (fuel + 1) epoch prev =
      fitEpochsAux corrOf fuel (epoch + 1) (corrOf epoch) := by
  simp [fitEpochsAux, h]

theorem fitEpochsAux_break (corrOf : Nat → ℚ) (fuel epoch : Nat) (prev : ℚ)
    (h : corrOf epoch - prev < 0) :
    fitEpochsAux corrOf (fuel + 1) epoch prev = epoch + 1 := by
  simp [fitEpochsAux, h]

/-- C1: the spec claims a forward pass applies all n cascade stages in
order (the squeezed output of stage i feeding stage i+1).  The code zips the
stage list against the singleton `[structures]`, so only the first stage
ever runs: on a concrete 2-stage cascade over ℤ (stage 1 adds one, stage 2
doubles, squeeze is the identity, input 0), `_run_rnns` returns the stage-1
output 1 while the specified cascade returns 2. -/
theorem c1_run_rnns_applies_only_first_stage :
    runRnns (fun x : ℤ => x) [fun _ x => x + 1, fun _ x => 2 * x] () 0 =
      some 1 ∧
    specCascade (fun x : ℤ => x) [fun _ x => x + 1, fun _ x => 2 * x] () 0 =
      some 2 ∧
    runRnns (fun x : ℤ => x) [fun _ x => x + 1, fun _ x => 2 * x] () 0 ≠
      specCascade (fun x : ℤ => x) [fun _ x => x + 1, fun _ x => 2 * x] () 0 := by
  refine ⟨by decide, by decide, by decide⟩

/-- C4: with at least 3 configured epochs, a history seeded at [0.0], and
epochs producing mean correlations 0.5, 0.7, 0.6 in order, the loop breaks
immediately after the epoch producing 0.6, having completed exactly 3
epochs. -/
theorem c4_early_stopping_three_epochs (epochs : Nat) (corrOf : Nat → ℚ)
    (h3 : 3 ≤ epochs) (h0 : corrOf 0 = 1 / 2) (h1 : corrOf 1 = 7 / 10)
    (h2 : corrOf 2 = 3 / 5) : fitEpochs epochs corrOf = 3 := by
  obtain ⟨k, hk⟩ := Nat.le.dest h3
  have hk2 : epochs = k + 3 := by omega
  subst hk2
  have e1 : fitEpochs (k + 3) corrOf = fitEpochsAux corrOf (k + 2) 1 (corrOf 0) :=
    fitEpochsAux_continue corrOf (k + 2) 0 0 (by rw [h0]; norm_num)
  have e2 : fitEpochsAux corrOf (k + 2) 1 (corrOf 0) =
      fitEpochsAux corrOf (k + 1) 2 (corrOf 1) :=
    fitEpochsAux_continue corrOf (k + 1) 1 (corrOf 0) (by rw [h0, h1]; norm_num)
  have e3 : fitEpochsAux corrOf (k + 1) 2 (corrOf 1) = 3 :=
    fitEpochsAux_break corrOf k 2 (corrOf 1) (by rw [h1, h2]; norm_num)
  rw [e1, e2, e3]

/-- A concrete per-epoch correlation sequence 0.5, 0.7, 0.6, ... -/
def c4corr : Nat → ℚ :=
  fun e => if e = 0 then 1 / 2 else if e = 1 then 7 / 10 else 3 / 5

/-- Witness for C4: with 5 configured epochs and correlations 0.5, 0.7,
0.6, exactly 3 epochs complete. -/
theorem c4_early_stopping_witness : fitEpochs 5 c4corr = 3 :=
  c4_early_stopping_three_epochs 5 c4corr (by norm_num) rfl rfl rfl

/-! ### Regression head: `RNNRegression._initialize_regression`
(lines 184-212), at the shape level -/

/-- Shape of one affine layer `torch.nn.Linear(inFeatures, outFeatures)`. -/
structure LinearShape where
  inFeatures : Nat
  outFeatures : Nat
deriving DecidableEq

/-- Embedding of the body of the per-attribute loop of
`_initialize_regression` (lines 198-212): given the running `last_size`,
build the layer list for one attribute (one `Linear(last_size, h)` per
hidden size, rebinding `last_size = h` each time, then a final
`Linear(last_size, output_size)` which does not rebind `last_size`), and
return the final value of `last_size`. -/
def buildHead (lastSize : Nat) (hiddenSizes : List Nat) (outputSize : Nat) :
    List LinearShape × Nat :=
  match hiddenSizes with
  | [] => ([⟨lastSize, outputSize⟩], lastSize)
  | h :: rest =>
    let p := buildHead h rest outputSize
    (⟨lastSize, h⟩ :: p.1, p.2)

/-- Embedding of `_initialize_regression` at the shape level: `last_size`
starts at `self.rnn_output_size` (line 190) and is threaded through the
attribute loop without being reset between attributes.  Returns each
per-attribute lists of affine layers, in attribute order. -/
def initializeRegression (rnnOutputSize : Nat) (hiddenSizes : List Nat)
    (outputSize : Nat) (attributes : List String) : List (List LinearShape) :=
  (attributes.foldl
    (fun acc _ =>
      let p := buildHead acc.2 hiddenSizes outputSize
      (acc.1 ++ [p.1], p.2))
    (([] : List (List LinearShape)), rnnOutputSize)).1

/-- Embedding of the inner loop of `_run_regression` (lines 308-313): the
nonlinearity (`F.relu`, line 316-317) is applied before every layer whose
index is nonzero (`if i:`), so between consecutive layers only. -/
def runHead {V : Type} (relu : V → V) (layers : List (V → V)) (x : V) : V :=
  (layers.foldl
    (fun acc lm => (acc.1 + 1, lm (if acc.1 = 0 then acc.2 else relu acc.2)))
    ((0 : Nat), x)).2

/-- C2: the spec claims that for `regression_hidden_sizes=[64, 32]` and
`output_size=1` the head of every attribute is three affine layers with output
sizes [64, 32, 1] and with its first layer consuming the shared summary
vector (input size = encoder output size).  With two attributes and encoder
output size 300, the failure of the source to reset `last_size` between
attributes gives the second attribute a first layer of input size 32, not
300 (while `_run_regression` still feeds it the 300-dim summary).  The
output sizes [64, 32, 1] and the relu placement do hold for every head. -/
theorem c2_second_attribute_head_input_size :
    initializeRegression 300 [64, 32] 1 ["factuality", "acceptability"] =
      [[⟨300, 64⟩, ⟨64, 32⟩, ⟨32, 1⟩], [⟨32, 64⟩, ⟨64, 32⟩, ⟨32, 1⟩]] ∧
    ((initializeRegression 300 [64, 32] 1
        ["factuality", "acceptability"]).getD 1 []).headD ⟨0, 0⟩ ≠
      LinearShape.mk 300 64 ∧
    (∀ f g h : ℤ → ℤ, ∀ relu : ℤ → ℤ, ∀ x : ℤ,
      runHead relu [f, g, h] x = h (relu (g (relu (f x))))) := by
  refine ⟨by decide, by decide, ?_⟩
  intro f g h relu x
  rfl

/-! ### Timestep selector: `RNNRegression.choose_timestep`
(lines 334-337) -/

/-- Dimension `output.size(2)` of a rank-3 tensor represented as nested lists. -/
def size2 (output : List (List (List ℚ))) : Nat :=
  ((output.headD []).headD []).length

/-- Embedding of `RNNRegression.choose_timestep`: the index tensor
`(idxs - 1).view(-1, 1).expand(output.size(0), output.size(2)).unsqueeze(1)`
holds `idxs[b] - 1` at every position `(b, 0, d)`; `gather` along dim 1
then yields `output[b][idxs[b] - 1][d]` at `(b, 0, d)`, and the final
squeeze drops the singleton middle dimension. -/
def choose_timestep (output : List (List (List ℚ))) (idxs : List Nat) :
    List (List ℚ) :=
  (List.range output.length).map (fun b =>
    (List.range (size2 output)).map (fun d =>
      ((output.getD b []).getD (idxs.getD b 0 - 1) []).getD d 0))

theorem getD_mem {α : Type} (l : List α) (n : Nat) (d : α)
    (h : n < l.length) : l.getD n d ∈ l := by
  rw [List.getD_eq_getElem?_getD, List.getElem?_eq_getElem h]
  exact List.getElem_mem h

theorem range_map_getD (l : List ℚ) (D : Nat) (hl : l.length = D) :
    (List.range D).map (fun d => l.getD d 0) = l := by
  apply List.ext_get
  · simp [hl]
  · intro n h1 h2
    simp only [List.get_eq_getElem, List.getElem_map, List.getElem_range,
      List.getD_eq_getElem?_getD, List.getElem?_eq_getElem h2,
      Option.getD_some]

/-- C7: for a padded per-timestep output of shape (batch, max_len, dim) and
true lengths `idxs`, the selector returns, for example `b`, exactly the
row of `output[b]` at timestep index `idxs[b] - 1`; and whenever
`idxs[b] ≠ maxLen` the gathered index differs from `maxLen - 1`. -/
theorem c7_choose_timestep_selects_length_minus_one
    (output : List (List (List ℚ))) (idxs : List Nat) (maxLen D b : Nat)
    (hb : b < output.length)
    (hex : ∀ ex ∈ output, ex.length = maxLen)
    (hrow : ∀ ex ∈ output, ∀ row ∈ ex, row.length = D)
    (hpos : 1 ≤ idxs.getD b 0) (hle : idxs.getD b 0 ≤ maxLen) :
    (choose_timestep output idxs).getD b [] =
      (output.getD b []).getD (idxs.getD b 0 - 1) [] ∧
    (idxs.getD b 0 ≠ maxLen → idxs.getD b 0 - 1 ≠ maxLen - 1) := by
  constructor
  · have hmem : output.getD b [] ∈ output := getD_mem _ _ _ hb
    have hexb : (output.getD b []).length = maxLen := hex _ hmem
    have hidx : idxs.getD b 0 - 1 < (output.getD b []).length := by
      rw [hexb]; omega
    have hrowmem : (output.getD b []).getD (idxs.getD b 0 - 1) [] ∈
        output.getD b [] := getD_mem _ _ _ hidx
    have hD : ((output.getD b []).getD (idxs.getD b 0 - 1) []).length = D :=
      hrow _ hmem _ hrowmem
    have hsz : size2 output = D := by
      have h0 : output.headD [] ∈ output := by
        cases output with
        | nil => simp at hb
        | cons ex rest => exact List.mem_cons_self _ _
      have hex0 : (output.headD []).length = maxLen := hex _ h0
      have h00 : (output.headD []).headD [] ∈ output.headD [] := by
        cases hcase : output.headD [] with
        | nil => rw [hcase] at hex0; simp at hex0; omega
        | cons row rest => exact List.mem_cons_self _ _
      exact hrow _ h0 _ h00
    have houter : (choose_timestep output idxs).getD b [] =
        (List.range (size2 output)).map (fun d =>
          ((output.getD b []).getD (idxs.getD b 0 - 1) []).getD d 0) := by
      rw [choose_timestep, List.getD_eq_getElem?_getD,
        List.getElem?_map, List.getElem?_range hb]
      rfl
    rw [houter, hsz, range_map_getD _ _ hD]
  · intro hne
    omega

/-- A concrete padded per-timestep output tensor of shape (3, 5, 2). -/
def c7out : List (List (List ℚ)) :=
  [[[1, 2], [3, 4], [5, 6], [7, 8], [9, 10]],
   [[11, 12], [13, 14], [15, 16], [17, 18], [19, 20]],
   [[21, 22], [23, 24], [25, 26], [27, 28], [29, 30]]]

/-- Witness for C7: with true lengths [3, 5, 2] and batch index 1, the
selector picks the row at timestep index 4 = 5 - 1. -/
theorem c7_choose_timestep_witness :
    (choose_timestep c7out [3, 5, 2]).getD 1 [] =
      (c7out.getD 1 []).getD ([3, 5, 2].getD 1 0 - 1) [] ∧
    ([3, 5, 2].getD 1 0 ≠ 5 → [3, 5, 2].getD 1 0 - 1 ≠ 5 - 1) :=
  c7_choose_timestep_selects_length_minus_one c7out [3, 5, 2] 5 2 1
    (by decide) (by decide) (by decide) (by decide) (by decide)

/-! ### Cascade configuration: `_homogenize_parameters` (lines 90-116) and
`_validate_parameters` (lines 118-127) -/

/-- The kind of an encoder stage (an entry of `rnn_classes`). -/
inductive RNNKind
  | chain
  | tree
deriving DecidableEq

/-- A constructor parameter that is either a scalar or an iterable. -/
inductive Param (α : Type)
  | scalar (a : α)
  | lst (l : List α)
deriving DecidableEq

/-- Computes `len(p)` for iterable parameters, `none` for scalars (which fail the
`isinstance(p, Iterable)` test on line 95). -/
def Param.iterLen {α : Type} : Param α → Option Nat
  | .scalar _ => none
  | .lst l => some l.length

/-- The four cascade parameters handed to `_initialize_rnn`. -/
structure CascadeConfig where
  rnnClasses : Param RNNKind
  rnnHiddenSizes : Param Nat
  numRnnLayers : Param Nat
  bidirectional : Param Bool

/-- The lengths of the parameters that are iterables, in source order
(lines 93-95). -/
def iterableLens (c : CascadeConfig) : List Nat :=
  [c.rnnClasses.iterLen, c.rnnHiddenSizes.iterLen,
   c.numRnnLayers.iterLen, c.bidirectional.iterLen].filterMap id

/-- Embedding of `max_length = max([len(p) for p in iterables]) if iterables else 1`
(line 96); the Python `max` of a nonempty list of naturals is its fold. -/
def maxLength (c : CascadeConfig) : Nat :=
  match iterableLens c with
  | [] => 1
  | ls => ls.foldl max 0

/-- Broadcasting of one parameter (lines 98-116): scalars are replicated
`max_length` times, iterables are kept as given. -/
def Param.homogenize {α : Type} (maxLen : Nat) : Param α → List α
  | .scalar a => List.replicate maxLen a
  | .lst l => l

/-- The four attributes `_homogenize_parameters` sets on `self`. -/
structure HomogenizedConfig where
  rnnClasses : List RNNKind
  rnnHiddenSizes : List Nat
  numRnnLayers : List Nat
  bidirectional : List Bool
deriving DecidableEq

/-- Embedding of `_homogenize_parameters` (lines 90-116). -/
def homogenizeParameters (c : CascadeConfig) : HomogenizedConfig :=
  { rnnClasses := c.rnnClasses.homogenize (maxLength c)
    rnnHiddenSizes := c.rnnHiddenSizes.homogenize (maxLength c)
    numRnnLayers := c.numRnnLayers.homogenize (maxLength c)
    bidirectional := c.bidirectional.homogenize (maxLength c) }

/-- The message of the `ValueError` raised by `_validate_parameters`; the
source concatenates three fragments without separating spaces
(lines 124-126). -/
def valueErrorMsg : String :=
  "rnn_classes, rnn_hidden_sizes,num_rnn_layers, and bidirectionalmust be non-iterable or the same length"

/-- Embedding of `_validate_parameters` (lines 118-127): the three listed
assertions, turned into a `ValueError` on failure. -/
def validateParameters (h : HomogenizedConfig) :
    Except String HomogenizedConfig :=
  if h.rnnClasses.length = h.rnnHiddenSizes.length ∧
      h.rnnClasses.length = h.numRnnLayers.length ∧
      h.rnnClasses.length = h.bidirectional.length then
    Except.ok h
  else Except.error valueErrorMsg

/-- The construction-time validation path of `_initialize_rnn`
(lines 159-161): homogenize, then validate, before any rnn is built. -/
def initializeCascade (c : CascadeConfig) : Except String HomogenizedConfig :=
  validateParameters (homogenizeParameters c)

/-- The four homogenized list lengths, in source order. -/
def fourLens (h : HomogenizedConfig) : List Nat :=
  [h.rnnClasses.length, h.rnnHiddenSizes.length,
   h.numRnnLayers.length, h.bidirectional.length]

theorem foldl_max_const (ls : List Nat) (n : Nat)
    (hall : ∀ x ∈ ls, x = n) (hne : ls ≠ []) :
    ∀ acc, ls.foldl max acc = max acc n := by
  induction ls with
  | nil => exact absurd rfl hne
  | cons a t ih =>
    intro acc
    have ha : a = n := hall a (List.mem_cons_self a t)
    cases t with
    | nil => simp [ha]
    | cons b t2 =>
      have step := ih (fun x hx => hall x (List.mem_cons_of_mem a hx))
        (by simp) (max acc a)
      rw [List.foldl_cons, step, ha, max_assoc, max_self]

theorem maxLength_of_const (c : CascadeConfig) (n : Nat)
    (hmem : n ∈ iterableLens c)
    (hall : ∀ x ∈ iterableLens c, x = n) : maxLength c = n := by
  cases hcase : iterableLens c with
  | nil => rw [hcase] at hmem; simp at hmem
  | cons a t =>
    rw [hcase] at hall
    have step := foldl_max_const (a :: t) n hall (by simp) 0
    simp only [maxLength, hcase]
    simpa using step

theorem mem_iterableLens_elim (c : CascadeConfig) (n : Nat)
    (h : n ∈ iterableLens c) :
    c.rnnClasses.iterLen = some n ∨ c.rnnHiddenSizes.iterLen = some n ∨
    c.numRnnLayers.iterLen = some n ∨ c.bidirectional.iterLen = some n := by
  obtain ⟨a, ha, hid⟩ := List.mem_filterMap.1 h
  have ha2 : a = some n := hid
  subst ha2
  simp only [List.mem_cons, List.not_mem_nil, or_false] at ha
  rcases ha with h | h | h | h
  · exact Or.inl h.symm
  · exact Or.inr (Or.inl h.symm)
  · exact Or.inr (Or.inr (Or.inl h.symm))
  · exact Or.inr (Or.inr (Or.inr h.symm))

theorem homogLenOfSome_classes (c : CascadeConfig) (n : Nat)
    (h : c.rnnClasses.iterLen = some n) :
    (homogenizeParameters c).rnnClasses.length = n := by
  cases hc : c.rnnClasses with
  | scalar a => rw [hc] at h; exact absurd h (by simp [Param.iterLen])
  | lst l =>
    rw [hc] at h
    have hn : l.length = n := by simpa [Param.iterLen] using h
    simp [homogenizeParameters, Param.homogenize, hc, hn]

theorem homogLenOfSome_hsizes (c : CascadeConfig) (n : Nat)
    (h : c.rnnHiddenSizes.iterLen = some n) :
    (homogenizeParameters c).rnnHiddenSizes.length = n := by
  cases hc : c.rnnHiddenSizes with
  | scalar a => rw [hc] at h; exact absurd h (by simp [Param.iterLen])
  | lst l =>
    rw [hc] at h
    have hn : l.length = n := by simpa [Param.iterLen] using h
    simp [homogenizeParameters, Param.homogenize, hc, hn]

theorem homogLenOfSome_layers (c : CascadeConfig) (n : Nat)
    (h : c.numRnnLayers.iterLen = some n) :
    (homogenizeParameters c).numRnnLayers.length = n := by
  cases hc : c.numRnnLayers with
  | scalar a => rw [hc] at h; exact absurd h (by simp [Param.iterLen])
  | lst l =>
    rw [hc] at h
    have hn : l.length = n := by simpa [Param.iterLen] using h
    simp [homogenizeParameters, Param.homogenize, hc, hn]

theorem homogLenOfSome_bidir (c : CascadeConfig) (n : Nat)
    (h : c.bidirectional.iterLen = some n) :
    (homogenizeParameters c).bidirectional.length = n := by
  cases hc : c.bidirectional with
  | scalar a => rw [hc] at h; exact absurd h (by simp [Param.iterLen])
  | lst l =>
    rw [hc] at h
    have hn : l.length = n := by simpa [Param.iterLen] using h
    simp [homogenizeParameters, Param.homogenize, hc, hn]

theorem iterLen_mem_classes (c : CascadeConfig) (n : Nat)
    (h : c.rnnClasses.iterLen = some n) : n ∈ iterableLens c := by
  simp only [iterableLens]
  refine List.mem_filterMap.2 ⟨some n, ?_, rfl⟩
  rw [← h]
  exact List.mem_cons_self _ _

theorem iterLen_mem_hsizes (c : CascadeConfig) (n : Nat)
    (h : c.rnnHiddenSizes.iterLen = some n) : n ∈ iterableLens c := by
  simp only [iterableLens]
  refine List.mem_filterMap.2 ⟨some n, ?_, rfl⟩
  rw [← h]
  exact List.mem_cons_of_mem _ (List.mem_cons_self _ _)

theorem iterLen_mem_layers (c : CascadeConfig) (n : Nat)
    (h : c.numRnnLayers.iterLen = some n) : n ∈ iterableLens c := by
  simp only [iterableLens]
  refine List.mem_filterMap.2 ⟨some n, ?_, rfl⟩
  rw [← h]
  exact List.mem_cons_of_mem _ (List.mem_cons_of_mem _ (List.mem_cons_self _ _))

theorem iterLen_mem_bidir (c : CascadeConfig) (n : Nat)
    (h : c.bidirectional.iterLen = some n) : n ∈ iterableLens c := by
  simp only [iterableLens]
  refine List.mem_filterMap.2 ⟨some n, ?_, rfl⟩
  rw [← h]
  exact List.mem_cons_of_mem _ (List.mem_cons_of_mem _
    (List.mem_cons_of_mem _ (List.mem_cons_self _ _)))

theorem homogLen_classes (c : CascadeConfig) (L : Nat)
    (hmax : maxLength c = L) (hEq : ∀ x ∈ iterableLens c, x = L) :
    (homogenizeParameters c).rnnClasses.length = L := by
  cases hcase : c.rnnClasses.iterLen with
  | none =>
    cases hc : c.rnnClasses with
    | scalar a => simp [homogenizeParameters, Param.homogenize, hc, hmax]
    | lst l => rw [hc] at hcase; exact absurd hcase (by simp [Param.iterLen])
  | some m =>
    rw [homogLenOfSome_classes c m hcase]
    exact hEq m (iterLen_mem_classes c m hcase)

theorem homogLen_hsizes (c : CascadeConfig) (L : Nat)
    (hmax : maxLength c = L) (hEq : ∀ x ∈ iterableLens c, x = L) :
    (homogenizeParameters c).rnnHiddenSizes.length = L := by
  cases hcase : c.rnnHiddenSizes.iterLen with
  | none =>
    cases hc : c.rnnHiddenSizes with
    | scalar a => simp [homogenizeParameters, Param.homogenize, hc, hmax]
    | lst l => rw [hc] at hcase; exact absurd hcase (by simp [Param.iterLen])
  | some m =>
    rw [homogLenOfSome_hsizes c m hcase]
    exact hEq m (iterLen_mem_hsizes c m hcase)

theorem homogLen_layers (c : CascadeConfig) (L : Nat)
    (hmax : maxLength c = L) (hEq : ∀ x ∈ iterableLens c, x = L) :
    (homogenizeParameters c).numRnnLayers.length = L := by
  cases hcase : c.numRnnLayers.iterLen with
  | none =>
    cases hc : c.numRnnLayers with
    | scalar a => simp [homogenizeParameters, Param.homogenize, hc, hmax]
    | lst l => rw [hc] at hcase; exact absurd hcase (by simp [Param.iterLen])
  | some m =>
    rw [homogLenOfSome_layers c m hcase]
    exact hEq m (iterLen_mem_layers c m hcase)

theorem homogLen_bidir (c : CascadeConfig) (L : Nat)
    (hmax : maxLength c = L) (hEq : ∀ x ∈ iterableLens c, x = L) :
    (homogenizeParameters c).bidirectional.length = L := by
  cases hcase : c.bidirectional.iterLen with
  | none =>
    cases hc : c.bidirectional with
    | scalar a => simp [homogenizeParameters, Param.homogenize, hc, hmax]
    | lst l => rw [hc] at hcase; exact absurd hcase (by simp [Param.iterLen])
  | some m =>
    rw [homogLenOfSome_bidir c m hcase]
    exact hEq m (iterLen_mem_bidir c m hcase)

/-- C6: when at least one cascade parameter is a list of length L > 1:
if every supplied list has that same length, homogenization plus
validation succeeds, every parameter list in the result has length L, and
each scalar parameter has been broadcast to `List.replicate L`; otherwise
`_validate_parameters` raises the `ValueError`, at construction time. -/
theorem c6_cascade_config_validation (c : CascadeConfig) (L : Nat)
    (hwit : L ∈ iterableLens c) (_hL : 1 < L) :
    ((∀ x ∈ iterableLens c, x = L) →
      initializeCascade c = Except.ok (homogenizeParameters c) ∧
      maxLength c = L ∧
      fourLens (homogenizeParameters c) = [L, L, L, L] ∧
      (∀ a, c.rnnClasses = Param.scalar a →
        (homogenizeParameters c).rnnClasses = List.replicate L a) ∧
      (∀ a, c.rnnHiddenSizes = Param.scalar a →
        (homogenizeParameters c).rnnHiddenSizes = List.replicate L a) ∧
      (∀ a, c.numRnnLayers = Param.scalar a →
        (homogenizeParameters c).numRnnLayers = List.replicate L a) ∧
      (∀ a, c.bidirectional = Param.scalar a →
        (homogenizeParameters c).bidirectional = List.replicate L a)) ∧
    ((¬ ∀ l1 ∈ iterableLens c, ∀ l2 ∈ iterableLens c, l1 = l2) →
      initializeCascade c = Except.error valueErrorMsg) := by
  constructor
  · intro hEq
    have hmax : maxLength c = L := maxLength_of_const c L hwit hEq
    have k1 := homogLen_classes c L hmax hEq
    have k2 := homogLen_hsizes c L hmax hEq
    have k3 := homogLen_layers c L hmax hEq
    have k4 := homogLen_bidir c L hmax hEq
    refine ⟨?_, hmax, ?_, ?_, ?_, ?_, ?_⟩
    · rw [initializeCascade, validateParameters, if_pos]
      exact ⟨k1.trans k2.symm, k1.trans k3.symm, k1.trans k4.symm⟩
    · simp [fourLens, k1, k2, k3, k4]
    · intro a ha
      simp [homogenizeParameters, Param.homogenize, ha, hmax]
    · intro a ha
      simp [homogenizeParameters, Param.homogenize, ha, hmax]
    · intro a ha
      simp [homogenizeParameters, Param.homogenize, ha, hmax]
    · intro a ha
      simp [homogenizeParameters, Param.homogenize, ha, hmax]
  · intro hne
    rw [initializeCascade, validateParameters, if_neg]
    intro hcond
    push_neg at hne
    obtain ⟨l1, h1, l2, h2, h12⟩ := hne
    apply h12
    have e1 := mem_iterableLens_elim c l1 h1
    have e2 := mem_iterableLens_elim c l2 h2
    obtain ⟨ha, hb, hc2⟩ := hcond
    have f1 : l1 = (homogenizeParameters c).rnnClasses.length ∨
        l1 = (homogenizeParameters c).rnnHiddenSizes.length ∨
        l1 = (homogenizeParameters c).numRnnLayers.length ∨
        l1 = (homogenizeParameters c).bidirectional.length := by
      rcases e1 with h | h | h | h
      · exact Or.inl (homogLenOfSome_classes c l1 h).symm
      · exact Or.inr (Or.inl (homogLenOfSome_hsizes c l1 h).symm)
      · exact Or.inr (Or.inr (Or.inl (homogLenOfSome_layers c l1 h).symm))
      · exact Or.inr (Or.inr (Or.inr (homogLenOfSome_bidir c l1 h).symm))
    have f2 : l2 = (homogenizeParameters c).rnnClasses.length ∨
        l2 = (homogenizeParameters c).rnnHiddenSizes.length ∨
        l2 = (homogenizeParameters c).numRnnLayers.length ∨
        l2 = (homogenizeParameters c).bidirectional.length := by
      rcases e2 with h | h | h | h
      · exact Or.inl (homogLenOfSome_classes c l2 h).symm
      · exact Or.inr (Or.inl (homogLenOfSome_hsizes c l2 h).symm)
      · exact Or.inr (Or.inr (Or.inl (homogLenOfSome_layers c l2 h).symm))
      · exact Or.inr (Or.inr (Or.inr (homogLenOfSome_bidir c l2 h).symm))
    rcases f1 with g | g | g | g <;> rcases f2 with k | k | k | k <;> omega

/-- A concrete configuration: two stages given as equal-length lists, the
other parameters scalar. -/
def c6cfg : CascadeConfig :=
  { rnnClasses := Param.lst [RNNKind.chain, RNNKind.chain]
    rnnHiddenSizes := Param.scalar 300
    numRnnLayers := Param.scalar 1
    bidirectional := Param.lst [false, true] }

/-- Witness for C6: on `c6cfg` construction validates successfully, the
broadcast length is 2, and all four homogenized lists have length 2. -/
theorem c6_cascade_config_witness :
    initializeCascade c6cfg = Except.ok (homogenizeParameters c6cfg) ∧
    maxLength c6cfg = 2 ∧
    fourLens (homogenizeParameters c6cfg) = [2, 2, 2, 2] :=
  ⟨((c6_cascade_config_validation c6cfg 2 (by decide) (by decide)).1
      (by decide)).1,
   ((c6_cascade_config_validation c6cfg 2 (by decide) (by decide)).1
      (by decide)).2.1,
   ((c6_cascade_config_validation c6cfg 2 (by decide) (by decide)).1
      (by decide)).2.2.1⟩

/-! ### Attention: `RNNRegression._run_attention` (lines 281-297) -/

/-- Embedding of `F.softmax(v, dim=0)` on a 1-dimensional tensor of length T, as used by
the unbatched branch (line 284) after squeezing the raw scores. -/
noncomputable def softmaxVec (v : List ℝ) : List ℝ :=
  v.map (fun x => Real.exp x / (v.map Real.exp).sum)

/-- Embedding of the batched branch of `_run_attention` (lines 291-292): for
a batch of at least two examples `att_raw.squeeze()` has shape (B, T), and
`F.softmax(..., dim=0)` normalizes over dim 0, the batch dimension: entry
(b, t) is `exp scores[b][t] / sum over b2 of exp scores[b2][t]`. -/
noncomputable def softmaxDim0 (scores : List (List ℝ)) : List (List ℝ) :=
  scores.map (fun row =>
    (List.range row.length).map (fun t =>
      Real.exp (row.getD t 0) /
        (scores.map (fun r => Real.exp (r.getD t 0))).sum))

/-- C3: the spec claims that in both branches the attention weights form a
probability distribution over the T timesteps of each example.  The
unbatched branch does normalize over timesteps (shown here for scores
[0, 1]), but the batched branch normalizes over the batch dimension: for
the 2-example batch with scores [[0, 0], [0, 1]], the weights of example 0 sum
to 1/2 + 1/(1 + e) < 1. -/
theorem c3_batched_softmax_not_normalized_over_timesteps :
    (softmaxVec [0, 1]).sum = 1 ∧
    ((softmaxDim0 [[0, 0], [0, 1]]).getD 0 []).sum ≠ 1 := by
  have hpos : (0 : ℝ) < 1 + Real.exp 1 := by positivity
  constructor
  · have hS : Real.exp 0 + (Real.exp 1 + 0) ≠ 0 := by positivity
    simp only [softmaxVec, List.map_cons, List.map_nil, List.sum_cons,
      List.sum_nil]
    field_simp
  · have h2 : 2 < Real.exp 1 := by
      have := Real.add_one_lt_exp (one_ne_zero)
      linarith
    simp only [softmaxDim0, List.map_cons, List.map_nil, List.length_cons,
      List.length_nil, List.sum_cons, List.sum_nil, List.getD, Real.exp_zero]
    norm_num [List.range_succ, List.getD]
    intro heq
    have hhalf : (1 + Real.exp 1)⁻¹ < 1 / 2 := by
      rw [inv_lt_iff_one_lt_mul₀ hpos]
      linarith
    linarith [heq, hhalf]

/-! ### Validation correlation aggregation: end of each epoch of
`RNNRegressionTrainer.fit` (lines 570-581) -/

/-- Embedding of `np.mean` on a list of rationals. -/
def npMean (l : List ℚ) : ℚ := l.sum / l.length

/-- Embedding of the validation block at the end of an epoch, abstracting
the per-attribute Pearson correlation as `corrOf`: the first `for attr`
loop (lines 572-575) rebinds the single variable `correlation` at every
iteration, so after the loop it holds the value of the last attribute; the
second loop (lines 577-580) appends that same value to `corrs` once per
attribute; the value appended to `early_stop` (line 581) is
`np.mean(corrs)`. -/
def appendedValidationValue (attributes : List String)
    (corrOf : String → ℚ) : ℚ :=
  let correlation := attributes.foldl (fun _ attr => corrOf attr) 0
  let corrs := attributes.foldl (fun acc _ => acc ++ [correlation]) []
  npMean corrs

/-- The value the specification describes: the arithmetic mean over all
configured attributes of the per-attribute validation correlations. -/
def specMeanCorrelation (attributes : List String)
    (corrOf : String → ℚ) : ℚ :=
  npMean (attributes.map corrOf)

/-- Per-attribute validation correlations: 1/5 for acceptability, 4/5 for
any other attribute. -/
def c5corr : String → ℚ :=
  fun attr => if attr = "acceptability" then 1 / 5 else 4 / 5

/-- C5: the spec claims the value appended to the early-stopping history is
the arithmetic mean over attributes of the per-attribute correlations.
With attributes [acceptability, genericity] whose correlations are 1/5 and
4/5, the code appends 4/5 (the correlation of the last attribute, repeated once
per attribute by the overwritten loop variable), not the mean 1/2. -/
theorem c5_appended_value_is_last_correlation :
    appendedValidationValue ["acceptability", "genericity"] c5corr = 4 / 5 ∧
    specMeanCorrelation ["acceptability", "genericity"] c5corr = 1 / 2 ∧
    appendedValidationValue ["acceptability", "genericity"] c5corr ≠
      specMeanCorrelation ["acceptability", "genericity"] c5corr := by
  have hne : ("genericity" : String) ≠ "acceptability" := by decide
  refine ⟨?_, ?_, ?_⟩ <;>
    norm_num [appendedValidationValue, specMeanCorrelation, npMean, c5corr,
      hne]

/-! ### Frozen embeddings: `_initialize_embeddings` (lines 129-154) and the
optimizer parameter selection in `fit` (line 477) -/

/-- A tensor together with its `requires_grad` flag. -/
structure GradTensor where
  data : List (List ℚ)
  requiresGrad : Bool

/-- Embedding of `_initialize_embeddings` for the pre-trained branch: the
matrix values are copied into the embedding weight (lines 148-150) and
gradients are then turned off unconditionally (line 152). -/
def initializeEmbeddings (matrixValues : List (List ℚ)) : GradTensor :=
  { data := matrixValues, requiresGrad := false }

/-- Embedding of `self.vocab_hash` (line 154): a dict comprehension over
`enumerate(self.vocab)`; a later duplicate key would overwrite an earlier
one. -/
def vocabHash (vocab : List String) (w : String) : Option Nat :=
  vocab.enum.foldl (fun acc p => if p.2 = w then some p.1 else acc) none

/-- An embedding lookup: row `vocab_hash[word]` of the embedding weight
(`_get_inputs`, lines 339-347, one token). -/
def lookupEmbedding (weights : GradTensor) (vocab : List String)
    (w : String) : Option (List ℚ) :=
  (vocabHash vocab w).map (fun i => weights.data.getD i [])

/-- One optimizer step on one tensor: `fit` collects only parameters with
`requires_grad = True` for the optimizer (line 477), so a step transforms
exactly those; `upd` abstracts the gradient update applied. -/
def optimizerStep (upd : List (List ℚ) → List (List ℚ))
    (p : GradTensor) : GradTensor :=
  if p.requiresGrad then { p with data := upd p.data } else p

/-- Any number of optimizer steps, with arbitrary per-step updates. -/
def runTraining (upds : List (List (List ℚ) → List (List ℚ)))
    (p : GradTensor) : GradTensor :=
  upds.foldl (fun q u => optimizerStep u q) p

theorem runTraining_frozen (upds : List (List (List ℚ) → List (List ℚ)))
    (p : GradTensor) (h : p.requiresGrad = false) : runTraining upds p = p := by
  induction upds with
  | nil => rfl
  | cons u t ih =>
    have hstep : optimizerStep u p = p := by simp [optimizerStep, h]
    simp only [runTraining, List.foldl_cons, hstep]
    simpa only [runTraining] using ih

theorem foldl_hash_no_match (w : String) (l : List (Nat × String))
    (h : ∀ p ∈ l, p.2 ≠ w) (acc : Option Nat) :
    l.foldl (fun acc p => if p.2 = w then some p.1 else acc) acc = acc := by
  induction l generalizing acc with
  | nil => rfl
  | cons p t ih =>
    have hp : p.2 ≠ w := h p (List.mem_cons_self p t)
    simp only [List.foldl_cons, if_neg hp]
    exact ih (fun q hq => h q (List.mem_cons_of_mem _ hq)) acc

theorem snd_mem_of_mem_enumFrom (l : List String) (k : Nat)
    (p : Nat × String) (h : p ∈ List.enumFrom k l) : p.2 ∈ l := by
  induction l generalizing k with
  | nil => simp [List.enumFrom] at h
  | cons x t ih =>
    rcases List.mem_cons.1 h with h1 | h2
    · rw [h1]
      exact List.mem_cons_self _ _
    · exact List.mem_cons_of_mem _ (ih (k + 1) h2)

theorem vocabHash_enumFrom (w : String) (l : List String) (hnd : l.Nodup)
    (i : Nat) (hi : i < l.length) (hw : l.get ⟨i, hi⟩ = w) :
    ∀ (k : Nat) (acc : Option Nat),
      (List.enumFrom k l).foldl
        (fun acc p => if p.2 = w then some p.1 else acc) acc =
        some (k + i) := by
  induction l generalizing i with
  | nil => simp at hi
  | cons x t ih =>
    intro k acc
    cases i with
    | zero =>
      have hx : x = w := hw
      have hwt : w ∉ t := by
        intro hmem
        exact (List.nodup_cons.1 hnd).1 (hx ▸ hmem)
      have hnot : ∀ p ∈ List.enumFrom (k + 1) t, p.2 ≠ w := by
        intro p hp hpw
        exact hwt (hpw ▸ snd_mem_of_mem_enumFrom t (k + 1) p hp)
      simp only [List.enumFrom, List.foldl_cons, if_pos hx]
      rw [foldl_hash_no_match w _ hnot]
      simp
    | succ j =>
      have hj : j < t.length := by simpa using hi
      have hwj : t.get ⟨j, hj⟩ = w := hw
      have hxne : x ≠ w := by
        intro hxw
        have hmem : w ∈ t := hwj ▸ t.get_mem _ _
        exact (List.nodup_cons.1 hnd).1 (hxw ▸ hmem)
      simp only [List.enumFrom, List.foldl_cons, if_neg hxne]
      rw [ih (List.nodup_cons.1 hnd).2 j hj hwj (k + 1) acc]
      congr 1
      omega

theorem vocabHash_get (vocab : List String) (hnd : vocab.Nodup) (i : Nat)
    (hi : i < vocab.length) :
    vocabHash vocab (vocab.get ⟨i, hi⟩) = some i := by
  have := vocabHash_enumFrom (vocab.get ⟨i, hi⟩) vocab hnd i hi rfl 0 none
  simpa [vocabHash, List.enum] using this

/-- C8: for an embedding table built from a pre-trained matrix with
pairwise-distinct tokens, looking up the i-th token returns exactly row i
of the source matrix, and both the lookup result and the whole weight
tensor are unchanged by any number of optimizer steps, the frozen weight
being excluded from the optimized parameters. -/
theorem c8_frozen_embedding_lookup (matrixValues : List (List ℚ))
    (vocab : List String) (hnd : vocab.Nodup) (i : Nat)
    (hi : i < vocab.length)
    (upds : List (List (List ℚ) → List (List ℚ))) :
    lookupEmbedding (runTraining upds (initializeEmbeddings matrixValues))
        vocab (vocab.get ⟨i, hi⟩) = some (matrixValues.getD i []) ∧
    runTraining upds (initializeEmbeddings matrixValues) =
      initializeEmbeddings matrixValues := by
  have hfrozen : runTraining upds (initializeEmbeddings matrixValues) =
      initializeEmbeddings matrixValues :=
    runTraining_frozen upds _ rfl
  refine ⟨?_, hfrozen⟩
  rw [hfrozen, lookupEmbedding, vocabHash_get vocab hnd i hi]
  rfl

/-- A concrete gradient update adding 100 everywhere. -/
def c8upd : List (List ℚ) → List (List ℚ) :=
  fun m => m.map (fun row => row.map (fun x => x + 100))

/-- Witness for C8: on a concrete 2-by-2 matrix and vocabulary, after one
optimizer step the lookup of token 1 still returns row 1 and the weight is
untouched. -/
theorem c8_frozen_embedding_witness :
    lookupEmbedding (runTraining [c8upd] (initializeEmbeddings [[1, 2], [3, 4]]))
        ["the", "cat"] (["the", "cat"].get ⟨1, by decide⟩) =
      some ([[1, 2], [3, 4]].getD 1 []) ∧
    runTraining [c8upd] (initializeEmbeddings [[1, 2], [3, 4]]) =
      initializeEmbeddings [[1, 2], [3, 4]] :=
  c8_frozen_embedding_lookup [[1, 2], [3, 4]] ["the", "cat"] (by decide) 1
    (by decide) [c8upd]

/-! ### Attention-weight extraction: `RNNRegression.attention_weights`
(lines 368-408) and `RNNRegressionTrainer.attention_weights`
(lines 650-665) -/

/-- The number of required positional parameters of
`RNNRegression._run_rnns` after `self` (line 264:
`def _run_rnns(self, inputs, structures, lengths)`), none with a
default. -/
def runRnnsRequiredArgs : Nat := 3

/-- The number of positional arguments passed at the call site inside
`RNNRegression.attention_weights` (line 406:
`self._run_rnns(inputs, structures)`). -/
def attentionWeightsCallArgs : Nat := 2

/-- Python call semantics for a function all of whose positional parameters
lack defaults: a call with a different number of positional arguments
raises `TypeError` before the body runs. -/
def pyCallCheck (required given : Nat) : Except String Unit :=
  if given = required then Except.ok ()
  else Except.error "TypeError: missing required positional argument"

/-- Embedding of the control flow of `RNNRegression.attention_weights`:
assert attention is enabled (line 387, `AssertionError` otherwise), resolve
words and inputs, then call `self._run_rnns(inputs, structures)`
(line 406). -/
def modelAttentionWeights (attentionEnabled : Bool) : Except String Unit :=
  if attentionEnabled then
    pyCallCheck runRnnsRequiredArgs attentionWeightsCallArgs
  else Except.error "AssertionError"

/-- Embedding of `RNNRegressionTrainer.attention_weights` (lines 663-665):
one call to the model-level `attention_weights` per example of `zip(*X)`; the
first raised exception propagates out of the list comprehension. -/
def trainerAttentionWeights (attentionEnabled : Bool) (numExamples : Nat) :
    Except String (List Unit) :=
  (List.range numExamples).mapM (fun _ => modelAttentionWeights attentionEnabled)

/-- C9: the spec claims that with attention enabled,
`trainer.attention_weights(X)` succeeds and returns one weight array per
example.  In the source, `attention_weights` calls
`self._run_rnns(inputs, structures)` while `_run_rnns` requires three
positional arguments, so for every non-empty `X` the call raises a
`TypeError` on the first example and returns nothing. -/
theorem c9_attention_weights_raises (numExamples : Nat)
    (h : 1 ≤ numExamples) :
    trainerAttentionWeights true numExamples =
      Except.error "TypeError: missing required positional argument" := by
  obtain ⟨m, rfl⟩ : ∃ m, numExamples = m + 1 := ⟨numExamples - 1, by omega⟩
  rw [trainerAttentionWeights, List.range_succ_eq_map]
  rfl

/-- Witness for C9: with attention enabled and two examples, the trainer
call raises the `TypeError`. -/
theorem c9_attention_weights_witness :
    trainerAttentionWeights true 2 =
      Except.error "TypeError: missing required positional argument" :=
  c9_attention_weights_raises 2 (by decide)

/-! ### The non-LSTM training branch: `RNNRegressionTrainer.fit`
(lines 488-501 and 528-552) -/

/-- The shape of a Python container relevant to attribute lookup. -/
inductive PyCollKind
  | pydict
  | pylist
deriving DecidableEq

/-- The container `targ_trace` is (re)initialized as a dict of per-attribute arrays
(lines 490-494) before the epoch loop. -/
def targTraceKind : PyCollKind := PyCollKind.pydict

/-- The container `losses` is rebound to a plain list at the top of each epoch
(line 501). -/
def lossesKind : PyCollKind := PyCollKind.pylist

/-- Python dicts have no `append` method. -/
def hasAppendMethod : PyCollKind → Bool
  | .pydict => false
  | .pylist => true

/-- Python lists have no `values` method. -/
def hasValuesMethod : PyCollKind → Bool
  | .pydict => true
  | .pylist => false

/-- Embedding of one iteration of the batch loop of `fit` in the non-LSTM
branch (lines 528-552): for each example, the first statement executed is
`targ_trace.append(targ)` (line 532), which requires `targ_trace` to have
an `append` method; after the example loop, `loss = sum(losses.values())`
(line 548) requires `losses` to have a `values` method; only then do
`loss.backward()` and `optimizer.step()` (lines 551-552) run and complete
one gradient step. -/
def processBatchNonLSTM (numExamples steps : Nat) : Except String Nat :=
  match numExamples with
  | 0 =>
    if hasValuesMethod lossesKind then Except.ok (steps + 1)
    else Except.error "AttributeError: list object has no attribute values"
  | _ + 1 =>
    if hasAppendMethod targTraceKind then
      if hasValuesMethod lossesKind then Except.ok (steps + 1)
      else Except.error "AttributeError: list object has no attribute values"
    else Except.error "AttributeError: dict object has no attribute append"

/-- The batch loop of one epoch in the non-LSTM branch, threading the count
of completed gradient steps; the first raised exception aborts `fit`. -/
def fitNonLSTM (batchSizes : List Nat) : Except String Nat :=
  batchSizes.foldlM (fun steps b => processBatchNonLSTM b steps) 0

/-- C10: for a trainer whose `rnn_classes` is not the linear-chain LSTM
class, `fit` on a non-empty batch list (first batch non-empty) raises an
`AttributeError` on the first example of the first batch — `targ_trace` is
a dict and has no `append` — and never completes a gradient step. -/
theorem c10_non_lstm_fit_errors (b : Nat) (rest : List Nat) (hb : 1 ≤ b) :
    fitNonLSTM (b :: rest) =
      Except.error "AttributeError: dict object has no attribute append" ∧
    ∀ n : Nat, fitNonLSTM (b :: rest) ≠ Except.ok n := by
  obtain ⟨m, rfl⟩ : ∃ m, b = m + 1 := ⟨b - 1, by omega⟩
  refine ⟨rfl, ?_⟩
  intro n hcontra
  exact Except.noConfusion hcontra

/-- Witness for C10: a batch list of two batches of sizes 4 and 3 raises
the `AttributeError` on the first example of the first batch. -/
theorem c10_non_lstm_fit_witness :
    fitNonLSTM [4, 3] =
      Except.error "AttributeError: dict object has no attribute append" :=
  (c10_non_lstm_fit_errors 4 [3] (by decide)).1

end Factslab
